import Mathlib

/-!
Shallow embedding of the s3-sharepoint-adapter core (src/main.rs,
src/utils/azure.rs, src/utils/s3.rs) and proofs about the claims on it.
The compiled FILENAME_PATTERN regex is modelled throughout as an abstract
Boolean predicate `is_match : String → Bool` on names; every concrete
instantiation used below is a function a real regex can express.
-/

namespace S3SP

/-- Kind payload of a folder entry (`Folder` in src/utils/azure.rs). -/
structure Folder where
  child_count : Nat
deriving DecidableEq

/-- Kind payload of a file entry (`File` in src/utils/azure.rs). -/
structure File where
  mime_type : String
deriving DecidableEq

/-- One remote drive item as deserialized (`Item` in src/utils/azure.rs).
Optional fields keep their source optionality; `size` is a machine u64 in the
source and is carried here as a Nat. -/
structure Item where
  created_date_time : String
  e_tag : Option String
  path : Option String
  id : String
  last_modified_date_time : Option String
  name : String
  web_url : String
  folder : Option Folder
  file : Option File
  size : Option Nat
deriving DecidableEq

/-- Rust `s.trim_start_matches("/")` on the character list: every leading
slash is removed. -/
def dropLeadingSlashes : List Char → List Char
  | [] => []
  | c :: cs => if c = '/' then dropLeadingSlashes cs else c :: cs

/-- Rust `s.trim_start_matches("/")`. -/
def trim_start_matches_slash (s : String) : String :=
  ⟨dropLeadingSlashes s.data⟩

/-- Rust `s.trim_end_matches("/")`: every trailing slash is removed. -/
def trim_end_matches_slash (s : String) : String :=
  ⟨(dropLeadingSlashes s.data.reverse).reverse⟩

/-- The function `prepare_prefix` of src/utils/azure.rs: chooses the
children/search form of the relative path and root/sub-path addressing. -/
def prepare_prefix (pfx search_query : String) : String :=
  if pfx = "/" ∨ pfx = "" then
    if search_query = "" then "/children"
    else "/search(q=\x27" ++ search_query ++ "\x27)"
  else
    if search_query = "" then
      ":/" ++ trim_end_matches_slash (trim_start_matches_slash pfx) ++ ":/children"
    else
      ":/" ++ trim_end_matches_slash (trim_start_matches_slash pfx)
        ++ ":/search(q=\x27" ++ search_query ++ "\x27)"

/-- Spec-side decomposition, mode axis: what the emptiness of the search
query alone contributes to the relative path. -/
def mode_part (q : String) : String :=
  if q = "" then "/children" else "/search(q=\x27" ++ q ++ "\x27)"

/-- Spec-side decomposition, addressing axis: what the prefix alone
contributes to the relative path. -/
def addr_part (pfx : String) : String :=
  if pfx = "/" ∨ pfx = "" then ""
  else ":/" ++ trim_end_matches_slash (trim_start_matches_slash pfx) ++ ":"

/-- String equality follows from equality of the underlying character
lists. -/
theorem str_eq_of_data (a b : String) (h : a.data = b.data) : a = b := by
  cases a
  cases b
  cases h
  rfl

/-- Appending strings appends their character lists. -/
theorem str_data_append (a b : String) : (a ++ b).data = a.data ++ b.data := by
  cases a
  cases b
  rfl

/-- The synthetic HEAD response (`HeadAzureObjectResponse` in
src/utils/azure.rs). -/
structure HeadAzureObjectResponse where
  content_type : String
  status_code : Nat
  size : Nat
deriving DecidableEq

/-- Rust `key.ends_with('/')`. -/
def ends_with_slash (s : String) : Bool :=
  s.data.getLast? = some '/'

/-- The `part` URL piece computed in head_azure_object: empty for an empty or
root key, the `:/` path form otherwise. -/
def head_part (file_path : String) : String :=
  if file_path = "" ∨ file_path = "/" then "" else ":/"

/-- The `key` substitution in head_azure_object: an empty requested key
becomes the root key `/`. -/
def head_key (file_path : String) : String :=
  if file_path = "" then "/" else file_path

/-- The decision logic head_azure_object applies to a successfully fetched
item (src/utils/azure.rs lines 252-289). -/
def head_resolve (is_match : String → Bool) (key : String) (result : Item) :
    HeadAzureObjectResponse :=
  if ends_with_slash key then
    if result.folder.isSome then ⟨"application/xml", 200, 0⟩
    else ⟨"application/xml", 404, 0⟩
  else
    match result.file with
    | some f =>
        if is_match result.name = false then ⟨"application/xml", 403, 0⟩
        else ⟨f.mime_type, 200, result.size.getD 0⟩
    | none => ⟨"application/xml", 404, 0⟩

/-- head_azure_object in src/utils/azure.rs over the outcome of the remote
metadata fetch: a response that fails to deserialize as an Item is returned
as an error unchanged; a deserialized item goes through the decision
logic on the substituted key. -/
def head_azure_object (is_match : String → Bool) (file_path : String)
    (fetched : Except String Item) : Except String HeadAzureObjectResponse :=
  match fetched with
  | .ok item => .ok (head_resolve is_match (head_key file_path) item)
  | .error e => .error e

/-- The status line and headers head_handler writes. -/
structure HeadHttpResponse where
  content_type : String
  content_length : Nat
  status_code : Nat
deriving DecidableEq

/-- head_handler in src/main.rs: renders head_azure_object's result; any
error becomes a 404 with Content-Type application/xml and Content-Length
0. -/
def head_handler (is_match : String → Bool) (file_path : String)
    (fetched : Except String Item) : HeadHttpResponse :=
  match head_azure_object is_match file_path fetched with
  | .ok r => ⟨r.content_type, r.size, r.status_code⟩
  | .error _ => ⟨"application/xml", 0, 404⟩

/-- An XML element holding only character data. -/
structure XmlLeaf where
  tag : String
  content : String
deriving DecidableEq

/-- One direct child of the ListBucketResult root: either a leaf element or
an element whose children are leaves. This captures exactly the sequence of
writer events of generate_s3_list_objects_v2_response in src/utils/s3.rs. -/
inductive XmlChild where
  | leaf (l : XmlLeaf)
  | node (tag : String) (children : List XmlLeaf)
deriving DecidableEq

/-- The five header elements written first (src/utils/s3.rs lines 26-51). -/
def headerLeaves (bucket pfx : String) : List XmlChild :=
  [ .leaf ⟨"Name", bucket⟩,
    .leaf ⟨"Prefix", trim_start_matches_slash pfx ++ "/"⟩,
    .leaf ⟨"IsTruncated", "false"⟩,
    .leaf ⟨"MaxKeys", "1000"⟩,
    .leaf ⟨"Marker", ""⟩ ]

/-- The CommonPrefixes element written for one folder item
(src/utils/s3.rs lines 54-68). -/
def renderCommonPrefix (pfx : String) (item : Item) : XmlChild :=
  .node "CommonPrefixes"
    [ ⟨"Prefix", trim_start_matches_slash pfx ++ "/" ++ item.name ++ "/"⟩ ]

/-- The unconditional empty Contents element written for the prefix itself
(src/utils/s3.rs lines 71-86). -/
def placeholderContents (pfx : String) : XmlChild :=
  .node "Contents"
    [ ⟨"Key", trim_start_matches_slash pfx ++ "/"⟩, ⟨"Size", "0"⟩ ]

/-- The Contents element written for one file item
(src/utils/s3.rs lines 93-138). -/
def renderContents (pfx : String) (item : Item) : XmlChild :=
  .node "Contents"
    [ ⟨"Key", trim_start_matches_slash pfx ++ "/" ++ item.name⟩,
      ⟨"Size", toString (item.size.getD 0)⟩,
      ⟨"LastModified", item.last_modified_date_time.getD ""⟩,
      ⟨"ETag", item.e_tag.getD ""⟩,
      ⟨"StorageClass", "STANDARD"⟩ ]

/-- Rust `name.to_lowercase()` as per-character lowercasing of the character
list (the names at issue are ASCII, where the two agree). -/
def toLowerStr (s : String) : String :=
  ⟨s.data.map Char.toLower⟩

/-- generate_s3_list_objects_v2_response in src/utils/s3.rs as the sequence
of elements written under ListBucketResult, in writer order. The filters are
the source's: folders render as CommonPrefixes unless files_only; the file
filter tests the compiled pattern against the lowercased item name. -/
def generate_s3_list_objects_v2_response (is_match : String → Bool)
    (bucket pfx : String) (objects : List Item) (files_only : Bool) :
    List XmlChild :=
  headerLeaves bucket pfx
    ++ (if files_only = false then
          (objects.filter fun i => i.folder.isSome).map (renderCommonPrefix pfx)
        else [])
    ++ [placeholderContents pfx]
    ++ (objects.filter fun i => i.file.isSome && is_match (toLowerStr i.name)).map
        (renderContents pfx)

/-- Rust `key.split('/').last().unwrap_or_default()`: the characters after
the last slash. -/
def final_segment (s : String) : String :=
  ⟨(s.data.reverse.takeWhile fun c => c ≠ '/').reverse⟩

/-- Outcome classification of the get_object handler. -/
inductive GetStatus where
  | forbidden
  | okBody
  | serverError
deriving DecidableEq

/-- What the get_object handler did: whether the remote content call was
issued, and how the request ended. -/
structure GetTrace where
  remote_called : Bool
  status : GetStatus
deriving DecidableEq

/-- get_object in src/main.rs: the compiled FILENAME_PATTERN is tested
against the full requested key; on failure the handler answers Forbidden and
returns before any remote call; otherwise the content fetch runs and its
error, if any, is surfaced as a server error. -/
def get_object (is_match : String → Bool) (key : String)
    (fetched : Except String Unit) : GetTrace :=
  if is_match key = false then ⟨false, .forbidden⟩
  else
    match fetched with
    | .ok _ => ⟨true, .okBody⟩
    | .error _ => ⟨true, .serverError⟩

/-- The cached token (`TokenData` in src/utils/azure.rs); instants are
carried as integers. -/
structure TokenData where
  access_token : String
  expires_at : Int
deriving DecidableEq

/-- The issuer's token response as far as the broker reads it: the access
token string together with the `exp` claim that decode_no_verify extracts
from its (unverified) claim payload. -/
structure IssuerToken where
  access_token : String
  exp : Int
deriving DecidableEq

/-- How one token-exchange attempt can go at the transport/parse level. -/
inductive FetchResult where
  | netFail
  | badBody
  | okResp (t : IssuerToken)
deriving DecidableEq

/-- Result of running a piece of the broker: a value, a returned error
value, or a process abort (a Rust `.unwrap()` on an Err / a panic). -/
inductive Outcome (α : Type) where
  | ok (a : α)
  | err
  | aborted
deriving DecidableEq

/-- The TokenData built from a parsed issuer response: the token string with
the expiry decoded from its claim payload. -/
def token_from_response (t : IssuerToken) : TokenData :=
  ⟨t.access_token, t.exp⟩

/-- fetch_token in src/utils/azure.rs: a transport failure hits
`.send().await.unwrap()` and aborts; a body that does not parse as
TokenResponse is returned as Err; a parsed body yields the token with its
decoded expiry. -/
def fetch_token : FetchResult → Outcome TokenData
  | .netFail => .aborted
  | .badBody => .err
  | .okResp t => .ok (token_from_response t)

/-- get_token in src/utils/azure.rs as one step over the cached token state:
returns the bearer string, the cache afterwards, and the number of exchange
calls performed. A cached token is reused iff now is strictly before its
expiry; otherwise one exchange runs and `fetch_token().await.unwrap()` turns
a returned Err into an abort; the new token replaces the cache whole. -/
def get_token (cached : Option TokenData) (now : Int) (fr : FetchResult) :
    Outcome (String × Option TokenData × Nat) :=
  match cached with
  | some d =>
      if now < d.expires_at then .ok (d.access_token, some d, 0)
      else
        match fetch_token fr with
        | .ok nt => .ok (nt.access_token, some nt, 1)
        | .err => .aborted
        | .aborted => .aborted
  | none =>
      match fetch_token fr with
      | .ok nt => .ok (nt.access_token, some nt, 1)
      | .err => .aborted
      | .aborted => .aborted

/-- A concrete folder item named docs, for concrete instantiations. -/
def docsFolderItem : Item :=
  { created_date_time := "2024-01-01T00:00:00Z", e_tag := none, path := none,
    id := "1", last_modified_date_time := none, name := "docs",
    web_url := "https://example.org/docs", folder := some ⟨0⟩, file := none,
    size := none }

/-- A concrete file item named a.txt, for concrete instantiations. -/
def aTxtFileItem : Item :=
  { created_date_time := "2024-01-01T00:00:00Z", e_tag := none, path := none,
    id := "2", last_modified_date_time := none, name := "a.txt",
    web_url := "https://example.org/a.txt", folder := none,
    file := some ⟨"text/plain"⟩, size := some 5 }

/-- C1: for a HEAD probe on key k whose remote fetch succeeds with item i,
the synthesized response follows the five-row decision table of section 4.6
exactly: trailing-slash key with a folder item gives 200/application/xml/0,
trailing-slash key with a file or kind-less item gives 404/application/xml/0,
slashless key with a file item whose name matches the pattern gives 200 with
the file's mime type and its size defaulted to 0, slashless key with a file
item whose name fails the pattern gives 403/application/xml/0, and a
slashless key with a folder or kind-less item gives 404/application/xml/0. -/
theorem c1_head_decision_table (is_match : String → Bool) (key : String)
    (item : Item) :
    (ends_with_slash key = true → item.folder.isSome = true →
      head_resolve is_match key item = ⟨"application/xml", 200, 0⟩)
  ∧ (ends_with_slash key = true → item.folder = none →
      head_resolve is_match key item = ⟨"application/xml", 404, 0⟩)
  ∧ (∀ f, ends_with_slash key = false → item.file = some f →
      is_match item.name = true →
      head_resolve is_match key item = ⟨f.mime_type, 200, item.size.getD 0⟩)
  ∧ (ends_with_slash key = false → item.file.isSome = true →
      is_match item.name = false →
      head_resolve is_match key item = ⟨"application/xml", 403, 0⟩)
  ∧ (ends_with_slash key = false → item.file = none →
      head_resolve is_match key item = ⟨"application/xml", 404, 0⟩)
  ∧ (key ≠ "" → head_azure_object is_match key (.ok item)
      = .ok (head_resolve is_match key item)) := by
  refine ⟨?_, ?_, ?_, ?_, ?_, ?_⟩
  · intro h1 h2
    simp [head_resolve, h1, h2]
  · intro h1 h2
    simp [head_resolve, h1, h2]
  · intro f h1 h2 h3
    simp [head_resolve, h1, h2, h3]
  · intro h1 h2 h3
    rcases hf : item.file with _ | f
    · simp [hf] at h2
    · simp [head_resolve, h1, hf, h3]
  · intro h1 h2
    simp [head_resolve, h1, h2]
  · intro h
    unfold head_azure_object head_key
    rw [if_neg h]

/-- C1 witness: the table applied to a folder probed with a trailing slash
and to a matching file probed without one. -/
theorem c1_head_decision_table_witness :
    head_resolve (fun _ => true) "docs/" docsFolderItem
        = ⟨"application/xml", 200, 0⟩
  ∧ head_resolve (fun _ => true) "a.txt" aTxtFileItem
        = ⟨"text/plain", 200, 5⟩ :=
  ⟨(c1_head_decision_table (fun _ => true) "docs/" docsFolderItem).1
      (by decide) (by decide),
   (c1_head_decision_table (fun _ => true) "a.txt" aTxtFileItem).2.2.1
      ⟨"text/plain"⟩ (by decide) (by decide) (by decide)⟩

/-- C2: prepare_prefix factors into an addressing part that depends only on
whether the prefix is empty or "/", concatenated with a mode part that
depends only on whether the search query is empty — the two axes never
interact — and the four prefix-by-query cases come out as the spec's table
says. -/
theorem c2_translate_axes (pfx q : String) :
    prepare_prefix pfx q = addr_part pfx ++ mode_part q
  ∧ ((pfx = "" ∨ pfx = "/") → q = "" → prepare_prefix pfx q = "/children")
  ∧ ((pfx = "" ∨ pfx = "/") → q ≠ "" →
      prepare_prefix pfx q = "/search(q=\x27" ++ q ++ "\x27)")
  ∧ (¬(pfx = "" ∨ pfx = "/") → q = "" →
      prepare_prefix pfx q
        = ":/" ++ trim_end_matches_slash (trim_start_matches_slash pfx)
            ++ ":/children")
  ∧ (¬(pfx = "" ∨ pfx = "/") → q ≠ "" →
      prepare_prefix pfx q
        = ":/" ++ trim_end_matches_slash (trim_start_matches_slash pfx)
            ++ ":/search(q=\x27" ++ q ++ "\x27)") := by
  have hfact : prepare_prefix pfx q = addr_part pfx ++ mode_part q := by
    unfold prepare_prefix addr_part mode_part
    by_cases hp : pfx = "/" ∨ pfx = ""
    · by_cases hq : q = ""
      · simp only [if_pos hp, if_pos hq]
        apply str_eq_of_data
        simp only [str_data_append, List.append_assoc]
        rfl
      · simp only [if_pos hp, if_neg hq]
        apply str_eq_of_data
        simp only [str_data_append, List.append_assoc]
        rfl
    · by_cases hq : q = ""
      · simp only [if_neg hp, if_pos hq]
        apply str_eq_of_data
        simp only [str_data_append, List.append_assoc]
        rfl
      · simp only [if_neg hp, if_neg hq]
        apply str_eq_of_data
        simp only [str_data_append, List.append_assoc]
        rfl
  refine ⟨hfact, ?_, ?_, ?_, ?_⟩
  · intro hp hq
    unfold prepare_prefix
    rw [if_pos hp.symm, if_pos hq]
  · intro hp hq
    unfold prepare_prefix
    rw [if_pos hp.symm, if_neg hq]
  · intro hp hq
    unfold prepare_prefix
    rw [if_neg (fun hc => hp hc.symm), if_pos hq]
  · intro hp hq
    unfold prepare_prefix
    rw [if_neg (fun hc => hp hc.symm), if_neg hq]

/-- C2 witness: a sub-path prefix with a non-empty query is translated to a
search scoped to the trimmed prefix. -/
theorem c2_translate_axes_witness :
    prepare_prefix "/a/b/" "x"
      = ":/" ++ trim_end_matches_slash (trim_start_matches_slash "/a/b/")
          ++ ":/search(q=\x27x\x27)" :=
  (c2_translate_axes "/a/b/" "x").2.2.2.2 (by decide) (by decide)

/-- C10: a HEAD probe with an empty requested key substitutes the root key
"/" and the empty URL part (no `:/` path form), so on a successful fetch the
outcome is 200/application/xml/0 exactly when the fetched root item is
folder-kind and 404/application/xml/0 otherwise — an empty key probes the
container root and is never a file lookup. -/
theorem c10_empty_key_probes_root (is_match : String → Bool) (item : Item) :
    head_part "" = ""
  ∧ head_key "" = "/"
  ∧ head_azure_object is_match "" (.ok item)
      = .ok (if item.folder.isSome then ⟨"application/xml", 200, 0⟩
             else ⟨"application/xml", 404, 0⟩) := by
  refine ⟨rfl, rfl, ?_⟩
  rcases hf : item.folder with _ | fo
  · simp [head_azure_object, head_resolve, head_key, ends_with_slash, hf]
  · simp [head_azure_object, head_resolve, head_key, ends_with_slash, hf]

/-- A concrete file item named A.txt with an uppercase letter. -/
def upperAItem : Item :=
  { created_date_time := "2024-01-01T00:00:00Z", e_tag := none, path := none,
    id := "3", last_modified_date_time := none, name := "A.txt",
    web_url := "https://example.org/A.txt", folder := none,
    file := some ⟨"text/plain"⟩, size := some 1 }

/-- No element of the five header leaves is a node. -/
theorem node_not_mem_header (bucket pfx tag : String) (l : List XmlLeaf) :
    XmlChild.node tag l ∉ headerLeaves bucket pfx := by
  simp [headerLeaves]

/-- Every CommonPrefixes element of a listing rendered with common prefixes
included comes from a folder-kind item of the collection and carries the
value trimmedPrefix/folderName/, and conversely. -/
theorem common_prefixes_mem_iff (is_match : String → Bool) (bucket pfx : String)
    (objects : List Item) (l : List XmlLeaf) :
    XmlChild.node "CommonPrefixes" l
        ∈ generate_s3_list_objects_v2_response is_match bucket pfx objects false
      ↔ ∃ item, item ∈ objects ∧ item.folder.isSome = true
          ∧ l = [⟨"Prefix",
                  trim_start_matches_slash pfx ++ "/" ++ item.name ++ "/"⟩] := by
  unfold generate_s3_list_objects_v2_response
  constructor
  · intro h
    rcases List.mem_append.mp h with h | h
    · rcases List.mem_append.mp h with h | h
      · rcases List.mem_append.mp h with h | h
        · exact absurd h (node_not_mem_header bucket pfx _ l)
        · have h2 : XmlChild.node "CommonPrefixes" l
              ∈ (objects.filter fun i => i.folder.isSome).map
                  (renderCommonPrefix pfx) := by
            simpa using h
          rcases List.mem_map.mp h2 with ⟨it, hit, heq⟩
          rcases List.mem_filter.mp hit with ⟨hmem, hfold⟩
          refine ⟨it, hmem, hfold, ?_⟩
          unfold renderCommonPrefix at heq
          injection heq with h1 h2
          exact h2.symm
      · rw [List.mem_singleton] at h
        unfold placeholderContents at h
        injection h with h1 h2
        exact absurd h1 (by decide)
    · rcases List.mem_map.mp h with ⟨it, _, heq⟩
      unfold renderContents at heq
      injection heq with h1 h2
      exact absurd h1 (by decide)
  · rintro ⟨it, hmem, hfold, rfl⟩
    have hm : renderCommonPrefix pfx it
        ∈ (objects.filter fun i => i.folder.isSome).map (renderCommonPrefix pfx) :=
      List.mem_map_of_mem _ (List.mem_filter.mpr ⟨hmem, hfold⟩)
    have hm2 : XmlChild.node "CommonPrefixes"
        [⟨"Prefix", trim_start_matches_slash pfx ++ "/" ++ it.name ++ "/"⟩]
        ∈ (objects.filter fun i => i.folder.isSome).map (renderCommonPrefix pfx) :=
      hm
    exact List.mem_append_left _
      (List.mem_append_left _ (List.mem_append_right _ hm2))

/-- Every Contents element of a rendered listing is the placeholder for the
prefix itself or comes from a file-kind item of the collection whose
lowercased name the pattern accepts. -/
theorem contents_mem_source (is_match : String → Bool) (bucket pfx : String)
    (objects : List Item) (fo : Bool) (l : List XmlLeaf) :
    XmlChild.node "Contents" l
        ∈ generate_s3_list_objects_v2_response is_match bucket pfx objects fo →
      l = [⟨"Key", trim_start_matches_slash pfx ++ "/"⟩, ⟨"Size", "0"⟩]
      ∨ ∃ item, item ∈ objects ∧ item.file.isSome = true
          ∧ is_match (toLowerStr item.name) = true
          ∧ XmlChild.node "Contents" l = renderContents pfx item := by
  intro h
  unfold generate_s3_list_objects_v2_response at h
  rcases List.mem_append.mp h with h | h
  · rcases List.mem_append.mp h with h | h
    · rcases List.mem_append.mp h with h | h
      · exact absurd h (node_not_mem_header bucket pfx _ l)
      · cases fo with
        | true => simp at h
        | false =>
            have h2 : XmlChild.node "Contents" l
                ∈ (objects.filter fun i => i.folder.isSome).map
                    (renderCommonPrefix pfx) := by
              simpa using h
            rcases List.mem_map.mp h2 with ⟨it, _, heq⟩
            unfold renderCommonPrefix at heq
            injection heq with h1 h2
            exact absurd h1 (by decide)
    · rw [List.mem_singleton] at h
      unfold placeholderContents at h
      injection h with h1 h2
      exact Or.inl h2
  · rcases List.mem_map.mp h with ⟨it, hit, heq⟩
    rcases List.mem_filter.mp hit with ⟨hmem, hcond⟩
    have hc : (it.file.isSome && is_match (toLowerStr it.name)) = true := hcond
    rcases (Bool.and_eq_true _ _).mp hc with ⟨hf, hl⟩
    exact Or.inr ⟨it, hmem, hf, hl, heq.symm⟩

/-- C3: the rendered ListBucketResult opens with the elements Name, Prefix,
IsTruncated, MaxKeys, Marker in exactly that order, IsTruncated the literal
false, MaxKeys the fixed 1000, Marker empty; every file item passing the
filter is rendered as a Contents element whose Size defaults a missing size
to 0, whose LastModified and ETag default to the empty string, and whose
StorageClass is always STANDARD, so every element is present even when the
upstream data is absent. -/
theorem c3_list_bucket_result_shape (is_match : String → Bool)
    (bucket pfx : String) (objects : List Item) (files_only : Bool) :
    (generate_s3_list_objects_v2_response is_match bucket pfx objects
        files_only).take 5
      = [ .leaf ⟨"Name", bucket⟩,
          .leaf ⟨"Prefix", trim_start_matches_slash pfx ++ "/"⟩,
          .leaf ⟨"IsTruncated", "false"⟩,
          .leaf ⟨"MaxKeys", "1000"⟩,
          .leaf ⟨"Marker", ""⟩ ]
  ∧ (∀ item, item ∈ objects → item.file.isSome = true →
      is_match (toLowerStr item.name) = true →
      renderContents pfx item
        ∈ generate_s3_list_objects_v2_response is_match bucket pfx objects
            files_only)
  ∧ (∀ item : Item, item.size = none → item.last_modified_date_time = none →
      item.e_tag = none →
      renderContents pfx item
        = .node "Contents"
            [ ⟨"Key", trim_start_matches_slash pfx ++ "/" ++ item.name⟩,
              ⟨"Size", "0"⟩, ⟨"LastModified", ""⟩, ⟨"ETag", ""⟩,
              ⟨"StorageClass", "STANDARD"⟩ ]) := by
  refine ⟨rfl, ?_, ?_⟩
  · intro item hmem hfile hmatch
    unfold generate_s3_list_objects_v2_response
    exact List.mem_append_right _
      (List.mem_map_of_mem _
        (List.mem_filter.mpr ⟨hmem, by simp [hfile, hmatch]⟩))
  · intro item h1 h2 h3
    simp [renderContents, h1, h2, h3]
    rfl

/-- C3 witness: the file item of the fixture is rendered into the listing. -/
theorem c3_list_bucket_result_shape_witness :
    renderContents "/" aTxtFileItem
      ∈ generate_s3_list_objects_v2_response (fun _ => true) "bucket" "/"
          [docsFolderItem, aTxtFileItem] false :=
  (c3_list_bucket_result_shape (fun _ => true) "bucket" "/"
      [docsFolderItem, aTxtFileItem] false).2.1 aTxtFileItem (by decide)
    (by decide) (by decide)

/-- C4 counterexample: at the fixture of the claim — one folder docs, one
file a.txt, common prefixes included, prefix "/" — the CommonPrefixes value
the code produces is /docs/, not docs/, and no Contents entry is keyed
a.txt (the key produced is /a.txt). -/
theorem c4_counterexample :
    XmlChild.node "CommonPrefixes" [⟨"Prefix", "docs/"⟩]
        ∉ generate_s3_list_objects_v2_response (fun _ => true) "bucket" "/"
            [docsFolderItem, aTxtFileItem] false
  ∧ XmlChild.node "Contents"
        [ ⟨"Key", "a.txt"⟩, ⟨"Size", "5"⟩, ⟨"LastModified", ""⟩, ⟨"ETag", ""⟩,
          ⟨"StorageClass", "STANDARD"⟩ ]
        ∉ generate_s3_list_objects_v2_response (fun _ => true) "bucket" "/"
            [docsFolderItem, aTxtFileItem] false
  ∧ XmlChild.node "CommonPrefixes" [⟨"Prefix", "/docs/"⟩]
        ∈ generate_s3_list_objects_v2_response (fun _ => true) "bucket" "/"
            [docsFolderItem, aTxtFileItem] false := by
  have hgen : generate_s3_list_objects_v2_response (fun _ => true) "bucket" "/"
      [docsFolderItem, aTxtFileItem] false
    = [ .leaf ⟨"Name", "bucket"⟩, .leaf ⟨"Prefix", "/"⟩,
        .leaf ⟨"IsTruncated", "false"⟩, .leaf ⟨"MaxKeys", "1000"⟩,
        .leaf ⟨"Marker", ""⟩,
        .node "CommonPrefixes" [⟨"Prefix", "/docs/"⟩],
        .node "Contents" [⟨"Key", "/"⟩, ⟨"Size", "0"⟩],
        .node "Contents"
          [ ⟨"Key", "/a.txt"⟩, ⟨"Size", "5"⟩, ⟨"LastModified", ""⟩,
            ⟨"ETag", ""⟩, ⟨"StorageClass", "STANDARD"⟩ ] ] := rfl
  refine ⟨?_, ?_, ?_⟩
  · rw [hgen]
    decide
  · rw [hgen]
    decide
  · rw [hgen]
    decide

/-- C4 amended: each CommonPrefixes/Prefix value is formed as
trimmedPrefix/folderName/ with the separator slash always present — so under
prefix "/" (trimmed to the empty string) the folder docs renders as /docs/ —
every Contents element is the placeholder or comes from a file-kind item
(folder-kind items are never rendered as Contents), and the fixture produces
exactly one CommonPrefixes element, valued /docs/, and one Contents entry
keyed /a.txt beside the placeholder. -/
theorem c4_common_prefix_formation (is_match : String → Bool)
    (bucket pfx : String) (objects : List Item) (l : List XmlLeaf) :
    (XmlChild.node "CommonPrefixes" l
        ∈ generate_s3_list_objects_v2_response is_match bucket pfx objects false
      ↔ ∃ item, item ∈ objects ∧ item.folder.isSome = true
          ∧ l = [⟨"Prefix",
                  trim_start_matches_slash pfx ++ "/" ++ item.name ++ "/"⟩])
  ∧ (XmlChild.node "Contents" l
        ∈ generate_s3_list_objects_v2_response is_match bucket pfx objects false →
      l = [⟨"Key", trim_start_matches_slash pfx ++ "/"⟩, ⟨"Size", "0"⟩]
      ∨ ∃ item, item ∈ objects ∧ item.file.isSome = true
          ∧ XmlChild.node "Contents" l = renderContents pfx item)
  ∧ generate_s3_list_objects_v2_response (fun _ => true) "bucket" "/"
        [docsFolderItem, aTxtFileItem] false
      = [ .leaf ⟨"Name", "bucket"⟩, .leaf ⟨"Prefix", "/"⟩,
          .leaf ⟨"IsTruncated", "false"⟩, .leaf ⟨"MaxKeys", "1000"⟩,
          .leaf ⟨"Marker", ""⟩,
          .node "CommonPrefixes" [⟨"Prefix", "/docs/"⟩],
          .node "Contents" [⟨"Key", "/"⟩, ⟨"Size", "0"⟩],
          .node "Contents"
            [ ⟨"Key", "/a.txt"⟩, ⟨"Size", "5"⟩, ⟨"LastModified", ""⟩,
              ⟨"ETag", ""⟩, ⟨"StorageClass", "STANDARD"⟩ ] ] := by
  refine ⟨common_prefixes_mem_iff is_match bucket pfx objects l, ?_, rfl⟩
  intro h
  rcases contents_mem_source is_match bucket pfx objects false l h with
    h1 | ⟨it, hm, hf, _, he⟩
  · exact Or.inl h1
  · exact Or.inr ⟨it, hm, hf, he⟩

/-- C5 counterexample: with the pattern accepting exactly the raw name A.txt
(the case-sensitive regex anchored to that name), the file item named A.txt
— file-kind, raw name accepted — is omitted from the rendered listing: the
matcher is applied to the lowercased name a.txt, which the pattern
rejects. -/
theorem c5_counterexample :
    (fun s => decide (s = "A.txt")) upperAItem.name = true
  ∧ upperAItem.file.isSome = true
  ∧ generate_s3_list_objects_v2_response (fun s => decide (s = "A.txt")) "bucket" ""
        [upperAItem] true
      = [ .leaf ⟨"Name", "bucket"⟩, .leaf ⟨"Prefix", "/"⟩,
          .leaf ⟨"IsTruncated", "false"⟩, .leaf ⟨"MaxKeys", "1000"⟩,
          .leaf ⟨"Marker", ""⟩,
          .node "Contents" [⟨"Key", "/"⟩, ⟨"Size", "0"⟩] ] :=
  ⟨rfl, rfl, rfl⟩

/-- C5 amended: inclusion in the rendered listing is decided by applying the
configured pattern to the item's lowercased name: every file-kind item whose
lowercased name matches is rendered, and every non-placeholder Contents
element comes from a file-kind item whose lowercased name matches — an item
is omitted exactly when it is file-kind and its lowercased name fails the
pattern. -/
theorem c5_filter_lowercases_name (is_match : String → Bool)
    (bucket pfx : String) (objects : List Item) (fo : Bool) (l : List XmlLeaf) :
    (∀ item, item ∈ objects → item.file.isSome = true →
        is_match (toLowerStr item.name) = true →
        renderContents pfx item
          ∈ generate_s3_list_objects_v2_response is_match bucket pfx objects fo)
  ∧ (XmlChild.node "Contents" l
        ∈ generate_s3_list_objects_v2_response is_match bucket pfx objects fo →
      l = [⟨"Key", trim_start_matches_slash pfx ++ "/"⟩, ⟨"Size", "0"⟩]
      ∨ ∃ item, item ∈ objects ∧ item.file.isSome = true
          ∧ is_match (toLowerStr item.name) = true
          ∧ XmlChild.node "Contents" l = renderContents pfx item) := by
  constructor
  · intro item hmem hfile hmatch
    unfold generate_s3_list_objects_v2_response
    exact List.mem_append_right _
      (List.mem_map_of_mem _
        (List.mem_filter.mpr ⟨hmem, by simp [hfile, hmatch]⟩))
  · exact contents_mem_source is_match bucket pfx objects fo l

/-- C6 counterexample: with a pattern accepting exactly the name report.pdf
(the anchored regex for that name), a GET of docs/report.pdf has a final
path segment that matches the pattern, yet the handler refuses it: the
pattern is tested against the full key, which fails. -/
theorem c6_counterexample :
    final_segment "docs/report.pdf" = "report.pdf"
  ∧ (fun s => decide (s = "report.pdf")) (final_segment "docs/report.pdf")
        = true
  ∧ get_object (fun s => decide (s = "report.pdf")) "docs/report.pdf" (.ok ())
        = ⟨false, .forbidden⟩ := by
  decide

/-- C6 amended: get_object applies the configured pattern to the entire
requested key, not to its final segment: the request is refused with
Forbidden, with no remote call made, exactly when the full key fails the
pattern, and when the full key matches the request is not refused on this
ground. -/
theorem c6_get_gate_whole_key (is_match : String → Bool) (key : String)
    (fetched : Except String Unit) :
    ((get_object is_match key fetched).status = .forbidden ↔
        is_match key = false)
  ∧ (is_match key = false →
      get_object is_match key fetched = ⟨false, .forbidden⟩)
  ∧ (is_match key = true →
      (get_object is_match key fetched).remote_called = true
      ∧ (get_object is_match key fetched).status ≠ .forbidden) := by
  by_cases h : is_match key = false
  · refine ⟨?_, ?_, ?_⟩
    · simp [get_object, h]
    · intro _
      simp [get_object, h]
    · intro h1
      exact absurd (h.symm.trans h1) (by decide)
  · have h1 : is_match key = true := by
      cases hm : is_match key
      · exact absurd hm h
      · rfl
    refine ⟨?_, ?_, ?_⟩
    · cases fetched <;> simp [get_object, h1]
    · intro hc
      rw [hc] at h1
      exact absurd h1 (by decide)
    · intro _
      cases fetched <;> simp [get_object, h1]

/-- C6 witness for the amended claim: a key that matches the pattern whole
is not refused and the remote call is made. -/
theorem c6_get_gate_whole_key_witness :
    (get_object (fun s => decide (s = "report.pdf")) "report.pdf"
        (.ok ())).remote_called = true
  ∧ (get_object (fun s => decide (s = "report.pdf")) "report.pdf"
        (.ok ())).status ≠ GetStatus.forbidden :=
  (c6_get_gate_whole_key (fun s => decide (s = "report.pdf")) "report.pdf"
      (.ok ())).2.2 (by decide)

/-- C7 counterexample: a HEAD whose remote fetch fails (here, an unparsable
body) has its error propagated by head_azure_object, but head_handler then
renders it as a synthesized 404 with application/xml and length 0 — the
failure is mapped to a 404 outcome at the exposed surface, contradicting the
claim that it never is. -/
theorem c7_counterexample :
    head_azure_object (fun _ => true) "a.txt" (.error "malformed body")
        = .error "malformed body"
  ∧ head_handler (fun _ => true) "a.txt" (.error "malformed body")
        = ⟨"application/xml", 0, 404⟩ :=
  ⟨rfl, rfl⟩

/-- C7 amended: head_azure_object propagates every fetch failure unchanged
as a distinct error and never itself synthesizes a 404 from one; the HEAD
handler of src/main.rs, however, maps every such propagated error to a 404
response with Content-Type application/xml and Content-Length 0, so at the
HTTP boundary the failure is reported as 404. -/
theorem c7_fetch_error_propagation (is_match : String → Bool)
    (file_path e : String) :
    head_azure_object is_match file_path (.error e) = .error e
  ∧ (∀ r, head_azure_object is_match file_path (.error e) ≠ .ok r)
  ∧ head_handler is_match file_path (.error e)
      = ⟨"application/xml", 0, 404⟩ := by
  refine ⟨rfl, ?_, rfl⟩
  intro r
  simp [head_azure_object]

/-- C8: get_token returns a cached token that is still valid (now strictly
before its expiry) with no exchange call and the cache unchanged; otherwise
it performs exactly one exchange, stores the token built from the response
with the expiry decoded from its claim payload as the whole new cache value,
and returns it; a subsequent call strictly before that expiry reuses the
stored token with no further exchange. -/
theorem c8_token_cache (d : TokenData) (now now2 : Int) (t : IssuerToken)
    (fr fr2 : FetchResult) :
    (now < d.expires_at →
      get_token (some d) now fr = .ok (d.access_token, some d, 0))
  ∧ (¬ now < d.expires_at →
      get_token (some d) now (.okResp t)
        = .ok (t.access_token, some (token_from_response t), 1))
  ∧ get_token none now (.okResp t)
      = .ok (t.access_token, some (token_from_response t), 1)
  ∧ (now2 < t.exp →
      get_token (some (token_from_response t)) now2 fr2
        = .ok (t.access_token, some (token_from_response t), 0)) := by
  refine ⟨?_, ?_, rfl, ?_⟩
  · intro h
    simp [get_token, h]
  · intro h
    simp [get_token, h, fetch_token, token_from_response]
  · intro h
    simp [get_token, token_from_response, h]

/-- C8 witness: a valid cached token is reused without exchange even when an
exchange would fail; an expired one triggers one exchange whose stored
result is reused on the next call before its expiry. -/
theorem c8_token_cache_witness :
    get_token (some ⟨"tok", 100⟩) 50 FetchResult.netFail
        = .ok ("tok", some ⟨"tok", 100⟩, 0)
  ∧ get_token (some ⟨"old", 100⟩) 150 (.okResp ⟨"new", 900⟩)
        = .ok ("new", some ⟨"new", 900⟩, 1)
  ∧ get_token (some ⟨"new", 900⟩) 200 FetchResult.badBody
        = .ok ("new", some ⟨"new", 900⟩, 0) :=
  ⟨(c8_token_cache ⟨"tok", 100⟩ 50 0 ⟨"x", 0⟩ .netFail .netFail).1 (by decide),
   (c8_token_cache ⟨"old", 100⟩ 150 0 ⟨"new", 900⟩ .netFail .netFail).2.1
      (by decide),
   (c8_token_cache ⟨"old", 100⟩ 0 200 ⟨"new", 900⟩ .netFail .badBody).2.2.2
      (by decide)⟩

/-- C9: contrary to the claim, a failed token exchange is never returned to
the caller as an error value: an unreachable issuer aborts inside
fetch_token at its unwrap, and a malformed response, returned as Err by
fetch_token, is unwrapped into an abort by get_token; no run of get_token
yields a returned error. -/
theorem c9_exchange_failure_aborts :
    get_token none 0 FetchResult.netFail = Outcome.aborted
  ∧ get_token none 0 FetchResult.badBody = Outcome.aborted
  ∧ fetch_token FetchResult.badBody = Outcome.err
  ∧ ∀ cached now fr, get_token cached now fr ≠ Outcome.err := by
  refine ⟨rfl, rfl, rfl, ?_⟩
  intro cached now fr
  cases cached with
  | none => cases fr <;> simp [get_token, fetch_token]
  | some d =>
      by_cases h : now < d.expires_at
      · simp [get_token, h]
      · cases fr <;> simp [get_token, fetch_token, h]

end S3SP
